import Mathlib

/-
Verification development for comic_cron (src/main.rs).

The program is embedded shallowly:
- The macky_xml node tree and its query combinators (elem_name, only,
  as_cdata, attribute lookup) are modelled from the spec (sections 4.1 and
  4.2), since the macky_xml crate itself is not part of this repository.
  The tokenizer (Parser.complete_document / complete_element) is treated as
  a collaborator boundary: runs are parameterised over an oracle
  String -> Option Node for each configured parser.
- chrono date parsing and formatting (parse_from_rfc2822 / format) is an
  external crate; runs are parameterised over an oracle
  String -> Option String for it.
- Network fetches and webhook POSTs are effects; fetch outcomes are inputs
  and delivery success is an oracle String -> Bool per URL.  Each run
  additionally returns the list of successful POSTs (url plus payload), the
  model of which notifications actually went out.
- Rust i32 arithmetic is modelled with Int.  Rust addition panics on
  overflow rather than wrapping, so every statement about a value returned
  by a run is unaffected.
-/

namespace ComicCron

/-- Model of the macky_xml node tree: elements with attributes and children,
and text/cdata leaves. -/
inductive Node where
  | element (name : String) (attributes : List (String × String)) (children : List Node)
  | cdata (content : String)
deriving Repr

/-- Attribute lookup by name, the model of `attributes.get(key)`. -/
def attrGet (attributes : List (String × String)) (key : String) : Option String :=
  (attributes.find? (fun p => p.1 == key)).map (·.2)

/-- Children of a node; text leaves have none. -/
def Node.childrenOf : Node → List Node
  | .element _ _ cs => cs
  | .cdata _ => []

/-- Attributes of a node; text leaves have none. -/
def Node.attrsOf : Node → List (String × String)
  | .element _ attrs _ => attrs
  | .cdata _ => []

/-- Text content of a node, the model of `as_cdata()`: some for a
text/cdata leaf, none for an element. -/
def Node.asCdata : Node → Option String
  | .cdata s => some s
  | .element _ _ _ => none

mutual
/-- Modelled from the spec: macky_xml query support, "find descendant
elements by tag name".  Collects, in document order, every element named
`n` in the node itself or its descendants. -/
def elemNameNode (n : String) : Node → List Node
  | .element nm attrs cs =>
      (if nm == n then [Node.element nm attrs cs] else []) ++ elemNameList n cs
  | .cdata _ => []

/-- Descendant-or-self elements named `n` over a node list, in document
order; the model of `Vec<&Node>::elem_name(n)`. -/
def elemNameList (n : String) : List Node → List Node
  | [] => []
  | x :: xs => elemNameNode n x ++ elemNameList n xs
end

/-- Modelled from the spec: macky_xml `only()`, returning the sole element
of a singleton list and nothing otherwise ("have exactly one child"). -/
def only {α : Type _} : List α → Option α
  | [x] => some x
  | _ => none

/-- Normalised RSS item record (struct RssItem, main.rs lines 74-82). -/
structure RssItem where
  title : String
  link : String
  img_url : String
  alt_text : String
  pub_date : String
  guid : String
deriving Repr, DecidableEq, Inhabited

/-- Embed field (struct Field, main.rs lines 14-19). -/
structure Field where
  name : String
  value : String
  inline : Bool
deriving Repr, DecidableEq

/-- Embed footer (struct Footer, main.rs lines 21-26). -/
structure Footer where
  text : String
  icon_url : Option String
deriving Repr, DecidableEq

/-- Embed image (struct Image, main.rs lines 28-31). -/
structure Image where
  url : String
deriving Repr, DecidableEq

/-- Discord embed (struct Embed, main.rs lines 33-45). -/
structure Embed where
  title : String
  ty : String
  description : String
  url : Option String
  timestamp : String
  fields : List Field
  footer : Option Footer
  image : Option Image
deriving Repr, DecidableEq

/-- Webhook payload (struct Webhook, main.rs lines 47-54). -/
structure Webhook where
  content : String
  username : String
  avatar_url : String
  embeds : List Embed
deriving Repr, DecidableEq

/-- xkcd archive entry (struct Xkcd, main.rs lines 56-72). -/
structure Xkcd where
  month : Nat
  num : Int
  link : String
  year : Int
  news : String
  safe_title : String
  transcript : String
  alt : String
  img : String
  title : String
  day : Nat
deriving Repr, DecidableEq

def AVATAR_URL : String :=
  "https://cdn.discordapp.com/attachments/751998036841857099/804504521215705118/zoey_pink_twitter.jpg"

/-- RssItem::parse_qc_desc (main.rs lines 111-114): src attribute of the
first img element anywhere in the fragment, with empty alt text. -/
def parse_qc_desc (data : List Node) : Option (String × String) := do
  let img ← (elemNameList "img" data).head?
  let img_url ← attrGet img.attrsOf "src"
  pure (img_url, "")

/-- RssItem::parse_smbc_desc (main.rs lines 116-119), identical body. -/
def parse_smbc_desc (data : List Node) : Option (String × String) := do
  let img ← (elemNameList "img" data).head?
  let img_url ← attrGet img.attrsOf "src"
  pure (img_url, "")

/-- The repeated chain
`item.children().elem_name(f).only()?.children().only()?.as_cdata()?`
used for each of the five required sub-elements in RssItem::from_rss. -/
def cdataField (item : Node) (f : String) : Option String := do
  let el ← only (elemNameList f item.childrenOf)
  let c ← only el.childrenOf
  c.asCdata

/-- RssItem::from_rss (main.rs lines 121-142).  `fragParse` is the oracle
for `Parser {allow_no_close: [img, !doctype]}.complete_element`, applied to
the description text wrapped in a synthetic root element. -/
def from_rss (fragParse : String → Option Node)
    (description : List Node → Option (String × String)) (item : Node) :
    Option RssItem := do
  let title ← cdataField item "title"
  let link ← cdataField item "link"
  let description_text ← cdataField item "description"
  let description_doc ← fragParse ("<root>" ++ description_text ++ "</root>")
  let p ← description description_doc.childrenOf
  let pub_date ← cdataField item "pubDate"
  let guid ← cdataField item "guid"
  pure { title := title, link := link, img_url := p.1, alt_text := p.2,
         pub_date := pub_date, guid := guid }

/-- RssItem::webhook (main.rs lines 93-109).  `rfc` is the oracle for
`chrono::DateTime::parse_from_rfc2822(s).ok()?.format("%+")`. -/
def RssItem.webhook (rfc : String → Option String) (self : RssItem)
    (potential_skip : Bool) (embed_title : String) (footer : String) :
    Option Webhook := do
  let ts ← rfc self.pub_date
  pure { content := if potential_skip then "Some items may have been skipped" else "",
         username := "ComicCron " ++ embed_title,
         avatar_url := AVATAR_URL,
         embeds := [{ title := self.title, ty := "rich", description := "",
                      url := some self.link, timestamp := ts, fields := [],
                      footer := some { text := self.alt_text, icon_url := some footer },
                      image := some { url := self.img_url } }] }

/-- RssItem::qc_webhook (main.rs lines 85-87). -/
def RssItem.qc_webhook (rfc : String → Option String) (self : RssItem)
    (potential_skip : Bool) : Option Webhook :=
  self.webhook rfc potential_skip "QC"
    "https://www.questionablecontent.net/favicon/favicon-16x16.png"

/-- RssItem.smbc_webhook (main.rs lines 89-91). -/
def RssItem.smbc_webhook (rfc : String → Option String) (self : RssItem)
    (potential_skip : Bool) : Option Webhook :=
  self.webhook rfc potential_skip "SMBC" "https://www.smbc-comics.com/favicon.ico"

def XKCD_FOOTER_ICON : String :=
  "https://cdn.discordapp.com/attachments/751998036841857099/804483113001812028/919f27-2.png"

/-- Into<Webhook> for Xkcd (main.rs lines 184-202).  `ymdFormat` is the
oracle for `chrono::Utc.ymd(y, m, d).and_hms(0, 0, 0).format("%+")`. -/
def Xkcd.intoWebhook (ymdFormat : Int → Nat → Nat → String) (self : Xkcd) : Webhook :=
  { content := "",
    username := "ComicCron xkcd",
    avatar_url := AVATAR_URL,
    embeds := [{ title := "#" ++ toString self.num ++ ": " ++ self.title,
                 ty := "rich", description := "",
                 url := some self.link,
                 timestamp := ymdFormat self.year self.month self.day,
                 fields := [],
                 footer := some { text := self.alt, icon_url := some XKCD_FOOTER_ICON },
                 image := some { url := self.img } }] }

/-- Record of one successful webhook POST: the URL that accepted it and the
payload it received. -/
structure Sent where
  url : String
  payload : Webhook
deriving Repr, DecidableEq

/-- Webhook::send (main.rs lines 146-151): POST to each configured URL in
order, aborting at the first failure.  `deliver u = true` models a
successful POST to `u`.  Also returns the list of URLs that accepted the
payload before any failure. -/
def Webhook.send (deliver : String → Bool) (self : Webhook) :
    List String → Except String Unit × List Sent
  | [] => (Except.ok (), [])
  | url :: rest =>
      if deliver url then
        let r := Webhook.send deliver self rest
        (r.1, { url := url, payload := self } :: r.2)
      else (Except.error "error sending webhook", [])

/-- Persisted checkpoint record (struct ComicCronState, main.rs
lines 204-213). -/
structure ComicCronState where
  xkcd : Int
  qc : String
  smbc : String
  xkcd_webhooks : List String
  qc_webhooks : List String
  smbc_webhooks : List String
  debug_webhooks : List String
deriving Repr, DecidableEq

/-- Environment of the xkcd run: outcome of the "latest" fetch, outcome of
each by-index fetch (Xkcd::get, main.rs lines 172-181, any of its four
failure points collapsing to an error string), the chrono formatting
oracle, and per-URL delivery success. -/
structure XkcdEnv where
  latest : Except String Xkcd
  byIndex : Int → Except String Xkcd
  ymdFormat : Int → Nat → Nat → String
  deliver : String → Bool

/-- Shared tail of the xkcd run (main.rs lines 240-244): build the webhook
from the chosen post, send it, and only then advance the checkpoint. -/
def xkcdNotify (env : XkcdEnv) (state : ComicCronState) (post : Xkcd) :
    Except String (Option String) × ComicCronState × List Sent :=
  let num := toString post.num
  let webhook : Webhook := post.intoWebhook env.ymdFormat
  match Webhook.send env.deliver webhook state.xkcd_webhooks with
  | (Except.error e, log) => (Except.error e, state, log)
  | (Except.ok _, log) =>
      (Except.ok (some num), { state with xkcd := state.xkcd + 1 }, log)

/-- The xkcd source run (fn xkcd, main.rs lines 231-245).  Returns the
Result value, the state after the run, and the successful POSTs. -/
def xkcd (env : XkcdEnv) (state : ComicCronState) :
    Except String (Option String) × ComicCronState × List Sent :=
  match env.latest with
  | Except.error e => (Except.error e, state, [])
  | Except.ok latest_xkcd =>
      if state.xkcd + 1 = latest_xkcd.num then
        xkcdNotify env state latest_xkcd
      else if state.xkcd + 1 < latest_xkcd.num then
        match env.byIndex (state.xkcd + 1) with
        | Except.error e => (Except.error e, state, [])
        | Except.ok post => xkcdNotify env state post
      else
        (Except.ok none, state, [])

/-- Iterated xkcd runs against a fixed environment: final state plus the
titles reported by the successful notifications, in run order.  Models the
cron scheduler invoking the program repeatedly while the feed is
unchanged. -/
def xkcdRuns (env : XkcdEnv) (s : ComicCronState) : Nat → ComicCronState × List String
  | 0 => (s, [])
  | k + 1 =>
      let r := xkcd env s
      let rest := xkcdRuns env r.2.1 k
      (rest.1, (match r.1 with | Except.ok (some t) => [t] | _ => []) ++ rest.2)

/-- First index `i ≥ 1` (into the full list) whose item has guid `g`; the
model of the scan loop `for i in 1..len` in qc and smbc. -/
def scanAux (g : String) : List RssItem → Option Nat
  | [] => none
  | x :: xs => if x.guid == g then some 0 else (scanAux g xs).map (· + 1)

/-- Index of the checkpoint guid within `items[1..n)`, shifted back to an
index into the full list. -/
def scanIdx (g : String) (items : List RssItem) : Option Nat :=
  (scanAux g (items.drop 1)).map (· + 1)

/-- Guid-ordered detection and notification, the shared body of fn qc
(main.rs lines 252-275) and fn smbc (lines 283-306) from the point where
the item list is available.  The two call sites differ only in the webhook
branding (`embed_title`, `footer`), the configured URLs and the checkpoint
field; everything else is line-for-line identical between them.  Returns
the Result value, the new checkpoint guid, and the successful POSTs. -/
def guidStep (rfc : String → Option String) (deliver : String → Bool)
    (embed_title footer : String) (urls : List String)
    (g : String) (rss_items : List RssItem) :
    Except String (Option String) × String × List Sent :=
  if rss_items.length = 0 then
    (Except.error "no rss items", g, [])
  else if (rss_items.headD default).guid == g then
    (Except.ok none, g, [])
  else
    match scanIdx g rss_items with
    | some i =>
        match RssItem.webhook rfc (rss_items.getD (i - 1) default) false
            embed_title footer with
        | none => (Except.error "rust -> webhook", g, [])
        | some webhook =>
            match Webhook.send deliver webhook urls with
            | (Except.error e, log) => (Except.error e, g, log)
            | (Except.ok _, log) =>
                (Except.ok (some (rss_items.getD (i - 1) default).title),
                 (rss_items.getD (i - 1) default).guid, log)
    | none =>
        match RssItem.webhook rfc (rss_items.getD (rss_items.length - 1) default)
            true embed_title footer with
        | none => (Except.error "rust -> webhook", g, [])
        | some webhook =>
            match Webhook.send deliver webhook urls with
            | (Except.error e, log) => (Except.error e, g, log)
            | (Except.ok _, log) =>
                (Except.ok (some (rss_items.getD (rss_items.length - 1) default).title),
                 (rss_items.getD (rss_items.length - 1) default).guid, log)

/-- Build every RssItem, stopping at the first failure; the model of the
loop `rss_items.push(RssItem::from_rss(xml, ...).ok_or("xml -> rust")?)`. -/
def buildAll (f : Node → Option RssItem) : List Node → Option (List RssItem)
  | [] => some []
  | x :: xs => do
      let i ← f x
      let rest ← buildAll f xs
      pure (i :: rest)

/-- Environment of a guid-ordered run: outcome of the feed fetch (the
response text, or either transport error), the document parser oracle
(macky_xml Parser::default().complete_document), the fragment parser
oracle used inside from_rss, the chrono oracle, and per-URL delivery. -/
structure RssEnv where
  fetch : Except String String
  parseDoc : String → Option Node
  fragParse : String → Option Node
  rfc : String → Option String
  deliver : String → Bool

/-- The QC source run (fn qc, main.rs lines 247-276). -/
def qc (env : RssEnv) (state : ComicCronState) :
    Except String (Option String) × ComicCronState × List Sent :=
  match env.fetch with
  | Except.error e => (Except.error e, state, [])
  | Except.ok text =>
      match env.parseDoc text with
      | none => (Except.error "text -> xml", state, [])
      | some root =>
          let xml_items := elemNameList "item" root.childrenOf
          if xml_items.length = 0 then
            (Except.error "no rss items", state, [])
          else
            match buildAll (from_rss env.fragParse parse_qc_desc) xml_items with
            | none => (Except.error "xml -> rust", state, [])
            | some rss_items =>
                let r := guidStep env.rfc env.deliver "QC"
                  "https://www.questionablecontent.net/favicon/favicon-16x16.png"
                  state.qc_webhooks state.qc rss_items
                (r.1, { state with qc := r.2.1 }, r.2.2)

/-- The SMBC source run (fn smbc, main.rs lines 278-307). -/
def smbc (env : RssEnv) (state : ComicCronState) :
    Except String (Option String) × ComicCronState × List Sent :=
  match env.fetch with
  | Except.error e => (Except.error e, state, [])
  | Except.ok text =>
      match env.parseDoc text with
      | none => (Except.error "text -> xml", state, [])
      | some root =>
          let xml_items := elemNameList "item" root.childrenOf
          if xml_items.length = 0 then
            (Except.error "no rss items", state, [])
          else
            match buildAll (from_rss env.fragParse parse_smbc_desc) xml_items with
            | none => (Except.error "xml -> rust", state, [])
            | some rss_items =>
                let r := guidStep env.rfc env.deliver "SMBC"
                  "https://www.smbc-comics.com/favicon.ico"
                  state.smbc_webhooks state.smbc rss_items
                (r.1, { state with smbc := r.2.1 }, r.2.2)

/-- Rust Debug escaping of a string body (quotes and backslashes; control
characters do not occur in the values at hand). -/
def debugEscape (s : String) : String :=
  (s.replace "\\" "\\\\").replace "\x22" "\\\x22"

/-- Rust Debug rendering of an Option<String>. -/
def renderOpt : Option String → String
  | none => "None"
  | some t => "Some(\x22" ++ debugEscape t ++ "\x22)"

/-- Rust Debug rendering of a Result<Option<String>, String>, the model of
`format!("{:?}", ...)` applied to each per-source outcome in main. -/
def renderResult : Except String (Option String) → String
  | Except.ok o => "Ok(" ++ renderOpt o ++ ")"
  | Except.error e => "Err(\x22" ++ debugEscape e ++ "\x22)"

/-- Rust Debug rendering of a Result<(), String>, for the save outcome. -/
def renderSave : Except String Unit → String
  | Except.ok _ => "Ok(())"
  | Except.error e => "Err(\x22" ++ debugEscape e ++ "\x22)"

/-- Observable actions of one orchestrator run: each source attempt, and a
save of the checkpoint record (ComicCronState::set). -/
inductive Event where
  | attemptXkcd
  | attemptQc
  | attemptSmbc
  | save (st : ComicCronState)
deriving Repr, DecidableEq

/-- Environment of fn main: the state load outcome, the three source
environments, and the save outcome. -/
structure MainEnv where
  load : Except String ComicCronState
  xkcdEnv : XkcdEnv
  qcEnv : RssEnv
  smbcEnv : RssEnv
  save : Except String Unit

/-- fn main (main.rs lines 309-357): load the state, run the three sources
in sequence on it, save once, and render the four outcome strings for the
debug webhook.  Returns those strings plus the final state (none when the
load failed), and the list of actions taken, in order. -/
def runMain (env : MainEnv) :
    Option (String × String × String × String × ComicCronState) × List Event :=
  match env.load with
  | Except.error _ => (none, [])
  | Except.ok state0 =>
      let x := xkcd env.xkcdEnv state0
      let q := qc env.qcEnv x.2.1
      let sm := smbc env.smbcEnv q.2.1
      (some (renderResult x.1, renderResult q.1, renderResult sm.1,
             renderSave env.save, sm.2.1),
       [Event.attemptXkcd, Event.attemptQc, Event.attemptSmbc, Event.save sm.2.1])

/-! Concrete fixtures used by witnesses and counterexamples. -/

/-- A date-parsing oracle that accepts every timestamp string. -/
def rfcConst : String → Option String := fun _ => some "TS"

/-- A delivery oracle on which every POST succeeds. -/
def deliverAll : String → Bool := fun _ => true

/-- A minimal RSS item with the given title and guid. -/
def mkItem (t g : String) : RssItem :=
  { title := t, link := "", img_url := "", alt_text := "", pub_date := "PD", guid := g }

/-- Three items, newest first, with guids a, b, c. -/
def cexItems : List RssItem := [mkItem "A" "a", mkItem "B" "b", mkItem "C" "c"]

/-- QC footer icon URL, as configured at the qc call site. -/
def QC_FOOTER : String := "https://www.questionablecontent.net/favicon/favicon-16x16.png"

/-- A well-formed RSS item node with all five required sub-elements. -/
def itemNode (t l d pd g : String) : Node :=
  Node.element "item" [] [
    Node.element "title" [] [Node.cdata t],
    Node.element "link" [] [Node.cdata l],
    Node.element "description" [] [Node.cdata d],
    Node.element "pubDate" [] [Node.cdata pd],
    Node.element "guid" [] [Node.cdata g]]

/-- A malformed RSS item node: it lacks the link sub-element (and others),
so RssItem::from_rss fails on it. -/
def badItemNode : Node :=
  Node.element "item" [] [Node.element "title" [] [Node.cdata "T2"]]

/-- Feed document containing one well-formed item followed by one
malformed item. -/
def rootWithBadItem : Node :=
  Node.element "rss" [] [Node.element "channel" [] [
    itemNode "T1" "L1" "D1" "PD" "g1", badItemNode]]

/-- The same feed document with the malformed item removed. -/
def rootGoodOnly : Node :=
  Node.element "rss" [] [Node.element "channel" [] [
    itemNode "T1" "L1" "D1" "PD" "g1"]]

/-- Fragment parser oracle for the fixture: description D1 parses to a
root holding one img element with a src attribute. -/
def fragParseCex : String → Option Node := fun s =>
  if s = "<root>D1</root>" then
    some (Node.element "root" [] [Node.element "img" [("src", "X")] []])
  else none

/-- A starting state for the fixtures. -/
def state0 : ComicCronState :=
  { xkcd := 100, qc := "", smbc := "", xkcd_webhooks := ["u"],
    qc_webhooks := ["u"], smbc_webhooks := ["u"], debug_webhooks := [] }

/-- RSS environment whose feed parses to `rootWithBadItem`. -/
def envBadItem : RssEnv :=
  { fetch := Except.ok "feed", parseDoc := fun _ => some rootWithBadItem,
    fragParse := fragParseCex, rfc := rfcConst, deliver := deliverAll }

/-- RSS environment whose feed parses to `rootGoodOnly`. -/
def envGoodOnly : RssEnv :=
  { fetch := Except.ok "feed", parseDoc := fun _ => some rootGoodOnly,
    fragParse := fragParseCex, rfc := rfcConst, deliver := deliverAll }

/-- A concrete xkcd entry with the given number. -/
def mkXkcd (n : Int) : Xkcd :=
  { month := 1, num := n, link := "", year := 2020, news := "", safe_title := "",
    transcript := "", alt := "ALT", img := "IMG", title := "XT", day := 2 }

/-- xkcd environment: latest entry 103, every index fetchable, all
deliveries succeed. -/
def xkcdEnvOk : XkcdEnv :=
  { latest := Except.ok (mkXkcd 103), byIndex := fun i => Except.ok (mkXkcd i),
    ymdFormat := fun _ _ _ => "YMD", deliver := deliverAll }

/-- xkcd environment where the latest entry is 101 and only the first of
the two configured URLs accepts the POST. -/
def xkcdEnvPartial : XkcdEnv :=
  { latest := Except.ok (mkXkcd 101), byIndex := fun i => Except.ok (mkXkcd i),
    ymdFormat := fun _ _ _ => "YMD", deliver := fun u => u == "u1" }

/-- xkcd environment like `xkcdEnvPartial` but with every delivery
succeeding. -/
def xkcdEnvRetry : XkcdEnv :=
  { latest := Except.ok (mkXkcd 101), byIndex := fun i => Except.ok (mkXkcd i),
    ymdFormat := fun _ _ _ => "YMD", deliver := deliverAll }

/-- State with two configured xkcd webhook URLs. -/
def state2 : ComicCronState :=
  { xkcd := 100, qc := "", smbc := "", xkcd_webhooks := ["u1", "u2"],
    qc_webhooks := [], smbc_webhooks := [], debug_webhooks := [] }

/-- RSS environment whose fetch fails. -/
def envFetchFail : RssEnv :=
  { fetch := Except.error "url -> request", parseDoc := fun _ => none,
    fragParse := fun _ => none, rfc := rfcConst, deliver := deliverAll }

/-- xkcd environment whose latest fetch fails. -/
def xkcdEnvFail : XkcdEnv :=
  { latest := Except.error "url -> request", byIndex := fun _ => Except.error "x",
    ymdFormat := fun _ _ _ => "YMD", deliver := deliverAll }

/-- A date-parsing oracle that rejects every timestamp string. -/
def rfcNone : String → Option String := fun _ => none

/-- The webhook payload produced for a `mkItem` under `rfcConst`, branded
for QC. -/
def qcPayload (t : String) (skip : Bool) : Webhook :=
  { content := if skip then "Some items may have been skipped" else "",
    username := "ComicCron QC",
    avatar_url := AVATAR_URL,
    embeds := [{ title := t, ty := "rich", description := "",
                 url := some "", timestamp := "TS", fields := [],
                 footer := some { text := "", icon_url := some QC_FOOTER },
                 image := some { url := "" } }] }

/-- The RssItem built from the well-formed fixture item node. -/
def rItem : RssItem :=
  { title := "T1", link := "L1", img_url := "X", alt_text := "",
    pub_date := "PD", guid := "g1" }

/-- Two items, newest first, with guids a and b. -/
def items2 : List RssItem := [mkItem "A" "a", mkItem "B" "b"]

/-- Orchestrator environment: xkcd fails at the fetch, the two RSS sources
fail at the fetch, the load and save succeed. -/
def mainEnvCex : MainEnv :=
  { load := Except.ok state0, xkcdEnv := xkcdEnvFail, qcEnv := envFetchFail,
    smbcEnv := envFetchFail, save := Except.ok () }

/-! Helper lemmas. -/

/-- When every URL accepts, send succeeds and every URL receives the
payload, in order. -/
theorem send_all_ok (deliver : String → Bool) (w : Webhook)
    (hdel : ∀ u, deliver u = true) :
    ∀ urls : List String, Webhook.send deliver w urls =
      (Except.ok (), urls.map (fun u => { url := u, payload := w }))
  | [] => rfl
  | url :: rest => by
      simp [Webhook.send, hdel url, send_all_ok deliver w hdel rest]

/-- Send succeeds exactly when every configured URL accepts the POST. -/
theorem send_ok_iff (deliver : String → Bool) (w : Webhook) :
    ∀ urls : List String, (Webhook.send deliver w urls).1 = Except.ok () ↔
      ∀ u ∈ urls, deliver u = true
  | [] => by simp [Webhook.send]
  | url :: rest => by
      by_cases h : deliver url
      · simp [Webhook.send, h, send_ok_iff deliver w rest]
      · simp [Webhook.send, h]

/-- The URLs that actually receive the payload are the longest prefix of
the configured list on which delivery succeeds. -/
theorem send_log_eq (deliver : String → Bool) (w : Webhook) :
    ∀ urls : List String, (Webhook.send deliver w urls).2 =
      (urls.takeWhile deliver).map (fun u => { url := u, payload := w })
  | [] => rfl
  | url :: rest => by
      by_cases h : deliver url
      · simp [Webhook.send, h, List.takeWhile_cons, send_log_eq deliver w rest]
      · simp [Webhook.send, h, List.takeWhile_cons]

/-- The scan loop finds exactly the first index whose guid matches. -/
theorem scanAux_eq_some (g : String) :
    ∀ (xs : List RssItem) (k : Nat), k < xs.length →
      (xs.getD k default).guid = g →
      (∀ j, j < k → (xs.getD j default).guid ≠ g) →
      scanAux g xs = some k
  | [], k => by simp
  | x :: xs, 0 => fun _ hg _ => by
      simp only [List.getD_cons_zero] at hg
      simp [scanAux, hg]
  | x :: xs, k + 1 => fun hk hg hfirst => by
      have hx : x.guid ≠ g := by
        simpa using hfirst 0 (Nat.succ_pos k)
      have ih := scanAux_eq_some g xs k (by simpa using hk)
        (by simpa using hg)
        (fun j hj => by simpa using hfirst (j + 1) (Nat.succ_lt_succ hj))
      simp [scanAux, hx, ih]

/-- The scan loop finds nothing when no guid matches. -/
theorem scanAux_eq_none (g : String) :
    ∀ xs : List RssItem,
      (∀ j, j < xs.length → (xs.getD j default).guid ≠ g) →
      scanAux g xs = none
  | [] => fun _ => rfl
  | x :: xs => fun h => by
      have hx : x.guid ≠ g := by simpa using h 0 (by simp)
      have ih := scanAux_eq_none g xs
        (fun j hj => by simpa using h (j + 1) (by simpa using Nat.succ_lt_succ hj))
      simp [scanAux, hx, ih]

/-- Item construction over the whole list fails as soon as any single item
fails to build. -/
theorem buildAll_none_of_mem (f : Node → Option RssItem) :
    ∀ (xs : List Node) (x : Node), x ∈ xs → f x = none → buildAll f xs = none
  | [], x => by simp
  | y :: ys, x => fun hmem hf => by
      rcases List.mem_cons.mp hmem with h | h
      · subst h; simp [buildAll, hf]
      · cases hfy : f y
        · simp [buildAll, hfy]
        · simp [buildAll, hfy, buildAll_none_of_mem f ys x h hf]

/-- The notify tail either fails leaving the state untouched, or succeeds
and advances the checkpoint by one. -/
theorem xkcdNotify_cases (env : XkcdEnv) (s : ComicCronState) (post : Xkcd) :
    (∃ e log, xkcdNotify env s post = (Except.error e, s, log)) ∨
    (∃ log, xkcdNotify env s post =
      (Except.ok (some (toString post.num)), { s with xkcd := s.xkcd + 1 }, log)) := by
  unfold xkcdNotify
  rcases hS : Webhook.send env.deliver (post.intoWebhook env.ymdFormat) s.xkcd_webhooks
    with ⟨r, log⟩
  rcases r with e | u
  · exact Or.inl ⟨e, log, by simp [hS]⟩
  · exact Or.inr ⟨log, by simp [hS]⟩

/-- Every xkcd run either fails with the state untouched, reports no
update with the state untouched, or notifies and advances by one. -/
theorem xkcd_cases (env : XkcdEnv) (s : ComicCronState) :
    (∃ e log, xkcd env s = (Except.error e, s, log)) ∨
    xkcd env s = (Except.ok none, s, []) ∨
    (∃ t log, xkcd env s = (Except.ok (some t), { s with xkcd := s.xkcd + 1 }, log)) := by
  unfold xkcd
  rcases hL : env.latest with e | lx
  · exact Or.inl ⟨e, [], by simp [hL]⟩
  · by_cases h1 : s.xkcd + 1 = lx.num
    · simp only [hL, if_pos h1]
      rcases xkcdNotify_cases env s lx with ⟨e, log, hh⟩ | ⟨log, hh⟩
      · exact Or.inl ⟨e, log, hh⟩
      · exact Or.inr (Or.inr ⟨_, log, hh⟩)
    · by_cases h2 : s.xkcd + 1 < lx.num
      · simp only [hL, if_neg h1, if_pos h2]
        rcases hB : env.byIndex (s.xkcd + 1) with e | post
        · exact Or.inl ⟨e, [], by simp⟩
        · rcases xkcdNotify_cases env s post with ⟨e, log, hh⟩ | ⟨log, hh⟩
          · exact Or.inl ⟨e, log, hh⟩
          · exact Or.inr (Or.inr ⟨_, log, hh⟩)
      · exact Or.inr (Or.inl (by simp [hL, if_neg h1, if_neg h2]))

/-- A failed guid-ordered step leaves the checkpoint guid unchanged. -/
theorem guidStep_cases (rfc : String → Option String) (deliver : String → Bool)
    (et ft : String) (urls : List String) (g : String) (items : List RssItem) :
    (∃ e log, guidStep rfc deliver et ft urls g items = (Except.error e, g, log)) ∨
    guidStep rfc deliver et ft urls g items = (Except.ok none, g, []) ∨
    (∃ t0 g0 log, guidStep rfc deliver et ft urls g items =
      (Except.ok (some t0), g0, log)) := by
  unfold guidStep
  repeat' split
  all_goals first
  | exact Or.inl ⟨_, _, rfl⟩
  | exact Or.inr (Or.inl rfl)
  | exact Or.inr (Or.inr ⟨_, _, _, rfl⟩)

/-- QC favicon footer string as used at the call site. -/
theorem qc_footer_eq : QC_FOOTER =
    "https://www.questionablecontent.net/favicon/favicon-16x16.png" := rfl

/-- Every qc run either fails with the state untouched, reports no update
with the state untouched, or notifies and rewrites only the qc guid. -/
theorem qc_cases (env : RssEnv) (s : ComicCronState) :
    (∃ e log, qc env s = (Except.error e, s, log)) ∨
    qc env s = (Except.ok none, s, []) ∨
    (∃ t0 g0 log, qc env s = (Except.ok (some t0), { s with qc := g0 }, log)) := by
  unfold qc
  rcases hF : env.fetch with e | text
  · exact Or.inl ⟨e, [], by simp⟩
  · rcases hD : env.parseDoc text with _ | root
    · exact Or.inl ⟨"text -> xml", [], by simp [hD]⟩
    · simp only [hD]
      by_cases h0 : (elemNameList "item" root.childrenOf).length = 0
      · exact Or.inl ⟨"no rss items", [], by simp [h0]⟩
      · simp only [if_neg h0]
        rcases hB : buildAll (from_rss env.fragParse parse_qc_desc)
            (elemNameList "item" root.childrenOf) with _ | items
        · exact Or.inl ⟨"xml -> rust", [], by simp⟩
        · rcases guidStep_cases env.rfc env.deliver "QC"
              "https://www.questionablecontent.net/favicon/favicon-16x16.png"
              s.qc_webhooks s.qc items with ⟨e, log, hh⟩ | hh | ⟨t0, g0, log, hh⟩
          · exact Or.inl ⟨e, log, by simp [hh]⟩
          · exact Or.inr (Or.inl (by simp [hh]))
          · exact Or.inr (Or.inr ⟨t0, g0, log, by simp [hh]⟩)

/-- Every smbc run either fails with the state untouched, reports no
update with the state untouched, or notifies and rewrites only the smbc
guid. -/
theorem smbc_cases (env : RssEnv) (s : ComicCronState) :
    (∃ e log, smbc env s = (Except.error e, s, log)) ∨
    smbc env s = (Except.ok none, s, []) ∨
    (∃ t0 g0 log, smbc env s = (Except.ok (some t0), { s with smbc := g0 }, log)) := by
  unfold smbc
  rcases hF : env.fetch with e | text
  · exact Or.inl ⟨e, [], by simp⟩
  · rcases hD : env.parseDoc text with _ | root
    · exact Or.inl ⟨"text -> xml", [], by simp [hD]⟩
    · simp only [hD]
      by_cases h0 : (elemNameList "item" root.childrenOf).length = 0
      · exact Or.inl ⟨"no rss items", [], by simp [h0]⟩
      · simp only [if_neg h0]
        rcases hB : buildAll (from_rss env.fragParse parse_smbc_desc)
            (elemNameList "item" root.childrenOf) with _ | items
        · exact Or.inl ⟨"xml -> rust", [], by simp⟩
        · rcases guidStep_cases env.rfc env.deliver "SMBC"
              "https://www.smbc-comics.com/favicon.ico"
              s.smbc_webhooks s.smbc items with ⟨e, log, hh⟩ | hh | ⟨t0, g0, log, hh⟩
          · exact Or.inl ⟨e, log, by simp [hh]⟩
          · exact Or.inr (Or.inl (by simp [hh]))
          · exact Or.inr (Or.inr ⟨t0, g0, log, by simp [hh]⟩)

/-- On any error the xkcd run returns with the state it was given. -/
theorem xkcd_error_state (env : XkcdEnv) (s : ComicCronState) (e : String)
    (h : (xkcd env s).1 = Except.error e) : (xkcd env s).2.1 = s := by
  rcases xkcd_cases env s with ⟨e', log, hh⟩ | hh | ⟨t, log, hh⟩ <;> simp [hh] at h ⊢

/-- The xkcd checkpoint moves only when the run reports a notified item. -/
theorem xkcd_mut_ok (env : XkcdEnv) (s : ComicCronState)
    (h : (xkcd env s).2.1 ≠ s) : ∃ t, (xkcd env s).1 = Except.ok (some t) := by
  rcases xkcd_cases env s with ⟨e', log, hh⟩ | hh | ⟨t, log, hh⟩
  · exact absurd (by simp [hh]) h
  · exact absurd (by simp [hh]) h
  · exact ⟨t, by simp [hh]⟩

/-- The xkcd run touches no state field except its own checkpoint. -/
theorem xkcd_shape (env : XkcdEnv) (s : ComicCronState) :
    ∃ c, (xkcd env s).2.1 = { s with xkcd := c } := by
  rcases xkcd_cases env s with ⟨e', log, hh⟩ | hh | ⟨t, log, hh⟩
  · exact ⟨s.xkcd, by simp [hh]⟩
  · exact ⟨s.xkcd, by simp [hh]⟩
  · exact ⟨s.xkcd + 1, by simp [hh]⟩

/-- On any error the guid-ordered step returns the checkpoint unchanged
and, unless the error came from delivery, an empty delivery log. -/
theorem guidStep_error_g (rfc : String → Option String) (deliver : String → Bool)
    (et ft : String) (urls : List String) (g : String) (items : List RssItem)
    (e : String) (h : (guidStep rfc deliver et ft urls g items).1 = Except.error e) :
    (guidStep rfc deliver et ft urls g items).2.1 = g := by
  rcases guidStep_cases rfc deliver et ft urls g items
    with ⟨e', log, hh⟩ | hh | ⟨t0, g0, log, hh⟩ <;> simp [hh] at h ⊢

/-- On any error the qc run returns with the state it was given. -/
theorem qc_error_state (env : RssEnv) (s : ComicCronState) (e : String)
    (h : (qc env s).1 = Except.error e) : (qc env s).2.1 = s := by
  rcases qc_cases env s with ⟨e', log, hh⟩ | hh | ⟨t0, g0, log, hh⟩ <;> simp [hh] at h ⊢

/-- The qc checkpoint moves only when the run reports a notified item. -/
theorem qc_mut_ok (env : RssEnv) (s : ComicCronState)
    (h : (qc env s).2.1 ≠ s) : ∃ t, (qc env s).1 = Except.ok (some t) := by
  rcases qc_cases env s with ⟨e', log, hh⟩ | hh | ⟨t0, g0, log, hh⟩
  · exact absurd (by simp [hh]) h
  · exact absurd (by simp [hh]) h
  · exact ⟨t0, by simp [hh]⟩

/-- The qc run touches no state field except its own checkpoint guid. -/
theorem qc_shape (env : RssEnv) (s : ComicCronState) :
    ∃ g0, (qc env s).2.1 = { s with qc := g0 } := by
  rcases qc_cases env s with ⟨e', log, hh⟩ | hh | ⟨t0, g0, log, hh⟩
  · exact ⟨s.qc, by simp [hh]⟩
  · exact ⟨s.qc, by simp [hh]⟩
  · exact ⟨g0, by simp [hh]⟩

/-- On any error the smbc run returns with the state it was given. -/
theorem smbc_error_state (env : RssEnv) (s : ComicCronState) (e : String)
    (h : (smbc env s).1 = Except.error e) : (smbc env s).2.1 = s := by
  rcases smbc_cases env s with ⟨e', log, hh⟩ | hh | ⟨t0, g0, log, hh⟩ <;> simp [hh] at h ⊢

/-- The smbc checkpoint moves only when the run reports a notified item. -/
theorem smbc_mut_ok (env : RssEnv) (s : ComicCronState)
    (h : (smbc env s).2.1 ≠ s) : ∃ t, (smbc env s).1 = Except.ok (some t) := by
  rcases smbc_cases env s with ⟨e', log, hh⟩ | hh | ⟨t0, g0, log, hh⟩
  · exact absurd (by simp [hh]) h
  · exact absurd (by simp [hh]) h
  · exact ⟨t0, by simp [hh]⟩

/-- The smbc run touches no state field except its own checkpoint guid. -/
theorem smbc_shape (env : RssEnv) (s : ComicCronState) :
    ∃ g0, (smbc env s).2.1 = { s with smbc := g0 } := by
  rcases smbc_cases env s with ⟨e', log, hh⟩ | hh | ⟨t0, g0, log, hh⟩
  · exact ⟨s.smbc, by simp [hh]⟩
  · exact ⟨s.smbc, by simp [hh]⟩
  · exact ⟨g0, by simp [hh]⟩

/-! Claim theorems. -/

/-- C3: Checkpoint atomicity: for every source (xkcd, qc, smbc) and every
run, the checkpoint field is mutated only after the notification for the
selected item succeeds (the run reports a notified item); on any failure
in that source's processing the whole state, its checkpoint field
included, holds its prior value when the source's function returns. -/
theorem claim3_checkpoint_atomicity :
    (∀ env s e, (xkcd env s).1 = Except.error e → (xkcd env s).2.1 = s) ∧
    (∀ env s e, (qc env s).1 = Except.error e → (qc env s).2.1 = s) ∧
    (∀ env s e, (smbc env s).1 = Except.error e → (smbc env s).2.1 = s) ∧
    (∀ env s, (xkcd env s).2.1 ≠ s → ∃ t, (xkcd env s).1 = Except.ok (some t)) ∧
    (∀ env s, (qc env s).2.1 ≠ s → ∃ t, (qc env s).1 = Except.ok (some t)) ∧
    (∀ env s, (smbc env s).2.1 ≠ s → ∃ t, (smbc env s).1 = Except.ok (some t)) :=
  ⟨xkcd_error_state, qc_error_state, smbc_error_state,
   xkcd_mut_ok, qc_mut_ok, smbc_mut_ok⟩

/-- Witness for C3 at a concrete failing fetch: the run errors and the
state comes back exactly as it went in. -/
theorem claim3_checkpoint_atomicity_witness :
    (xkcd xkcdEnvFail state0).1 = Except.error "url -> request" ∧
    (xkcd xkcdEnvFail state0).2.1 = state0 :=
  ⟨rfl, claim3_checkpoint_atomicity.1 xkcdEnvFail state0 "url -> request" rfl⟩

/-- C1: Numeric-source detector: for checkpoint c and fetched latest
number L, if c + 1 = L the run notifies entry L and sets the checkpoint to
L (content carries no skipped warning); if c + 1 < L the run fetches and
notifies exactly entry c + 1, never L, and sets the checkpoint to c + 1;
if c + 1 > L the run notifies nothing and leaves the checkpoint
unchanged. -/
theorem claim1_numeric_detector (env : XkcdEnv) (s : ComicCronState) (lx : Xkcd)
    (hl : env.latest = Except.ok lx) (hdel : ∀ u, env.deliver u = true) :
    (lx.num = s.xkcd + 1 →
      xkcd env s = (Except.ok (some (toString lx.num)), { s with xkcd := lx.num },
        s.xkcd_webhooks.map
          (fun u => { url := u, payload := lx.intoWebhook env.ymdFormat })) ∧
      (lx.intoWebhook env.ymdFormat).content = "") ∧
    (∀ e, s.xkcd + 1 < lx.num → env.byIndex (s.xkcd + 1) = Except.ok e →
      e.num = s.xkcd + 1 →
      xkcd env s = (Except.ok (some (toString e.num)), { s with xkcd := s.xkcd + 1 },
        s.xkcd_webhooks.map
          (fun u => { url := u, payload := e.intoWebhook env.ymdFormat })) ∧
      e.num ≠ lx.num ∧ (e.intoWebhook env.ymdFormat).content = "") ∧
    (s.xkcd + 1 > lx.num → xkcd env s = (Except.ok none, s, [])) := by
  refine ⟨?_, ?_, ?_⟩
  · intro hL
    refine ⟨?_, rfl⟩
    unfold xkcd xkcdNotify
    simp only [hl]
    rw [if_pos hL.symm, send_all_ok env.deliver _ hdel]
    simp [hL]
  · intro e hlt hB he
    refine ⟨?_, by omega, rfl⟩
    unfold xkcd xkcdNotify
    simp only [hl]
    rw [if_neg (by omega), if_pos hlt]
    simp only [hB]
    rw [send_all_ok env.deliver _ hdel]
  · intro hgt
    unfold xkcd
    simp only [hl]
    rw [if_neg (by omega), if_neg (by omega)]

/-- Witness for C1: checkpoint 102, latest 103 is exactly one ahead, so
the run notifies 103 and sets the checkpoint to 103. -/
theorem claim1_numeric_detector_witness :
    xkcd xkcdEnvOk { state0 with xkcd := 102 } =
      (Except.ok (some (toString (mkXkcd 103).num)),
       { ({ state0 with xkcd := 102 } : ComicCronState) with xkcd := (mkXkcd 103).num },
       ({ state0 with xkcd := 102 } : ComicCronState).xkcd_webhooks.map
         (fun u => { url := u, payload := (mkXkcd 103).intoWebhook xkcdEnvOk.ymdFormat })) ∧
    ((mkXkcd 103).intoWebhook xkcdEnvOk.ymdFormat).content = "" :=
  (claim1_numeric_detector xkcdEnvOk { state0 with xkcd := 102 } (mkXkcd 103)
    rfl (fun _ => rfl)).1 (by decide)

/-- C9: Implicit partial delivery: a webhook is POSTed to each configured
URL in order; the send succeeds exactly when every URL accepts it; the
URLs that received it are the longest accepting prefix.  When a later URL
fails after an earlier one already received the message, the source
returns an error and the checkpoint stays put, so the next run (here: one
where delivery works) re-sends the very same payload to all URLs,
including the one already notified. -/
theorem claim9_partial_delivery (deliver : String → Bool) (w : Webhook)
    (urls : List String) :
    ((Webhook.send deliver w urls).1 = Except.ok () ↔ ∀ u ∈ urls, deliver u = true) ∧
    ((Webhook.send deliver w urls).2 =
      (urls.takeWhile deliver).map (fun u => { url := u, payload := w })) ∧
    (∀ (env env2 : XkcdEnv) (s : ComicCronState) (lx : Xkcd) (u1 u2 : String),
      env.latest = Except.ok lx → lx.num = s.xkcd + 1 →
      s.xkcd_webhooks = [u1, u2] →
      env.deliver u1 = true → env.deliver u2 = false →
      env2.latest = env.latest → env2.ymdFormat = env.ymdFormat →
      (∀ u, env2.deliver u = true) →
      xkcd env s = (Except.error "error sending webhook", s,
        [{ url := u1, payload := lx.intoWebhook env.ymdFormat }]) ∧
      xkcd env2 s = (Except.ok (some (toString lx.num)), { s with xkcd := s.xkcd + 1 },
        [{ url := u1, payload := lx.intoWebhook env.ymdFormat },
         { url := u2, payload := lx.intoWebhook env.ymdFormat }])) := by
  refine ⟨send_ok_iff deliver w urls, send_log_eq deliver w urls, ?_⟩
  intro env env2 s lx u1 u2 hl hL hurls hd1 hd2 hl2 hf2 hdel2
  constructor
  · unfold xkcd xkcdNotify
    simp only [hl]
    rw [if_pos hL.symm, hurls]
    simp [Webhook.send, hd1, hd2]
  · unfold xkcd xkcdNotify
    simp only [hl2, hl]
    rw [if_pos hL.symm, hurls, send_all_ok env2.deliver _ hdel2, hf2]
    simp

/-- Witness for C9 at concrete URLs u1 (accepting) and u2 (refusing). -/
theorem claim9_partial_delivery_witness :
    xkcd xkcdEnvPartial state2 = (Except.error "error sending webhook", state2,
      [{ url := "u1", payload := (mkXkcd 101).intoWebhook xkcdEnvPartial.ymdFormat }]) ∧
    xkcd xkcdEnvRetry state2 =
      (Except.ok (some (toString (mkXkcd 101).num)), { state2 with xkcd := state2.xkcd + 1 },
       [{ url := "u1", payload := (mkXkcd 101).intoWebhook xkcdEnvPartial.ymdFormat },
        { url := "u2", payload := (mkXkcd 101).intoWebhook xkcdEnvPartial.ymdFormat }]) :=
  (claim9_partial_delivery xkcdEnvPartial.deliver
      ((mkXkcd 101).intoWebhook xkcdEnvPartial.ymdFormat) []).2.2
    xkcdEnvPartial xkcdEnvRetry state2 (mkXkcd 101) "u1" "u2"
    rfl (by decide) rfl rfl rfl rfl rfl (fun _ => rfl)

/-- One catch-up step: while strictly behind the latest number, a run with
working fetches and delivery notifies exactly the next number and advances
the checkpoint by exactly one. -/
theorem xkcd_step_behind (env : XkcdEnv) (lx : Xkcd)
    (hl : env.latest = Except.ok lx) (hdel : ∀ u, env.deliver u = true)
    (s : ComicCronState) (hlt : s.xkcd < lx.num)
    (hidx : ∀ i : Int, s.xkcd < i → i < lx.num →
      ∃ p, env.byIndex i = Except.ok p ∧ p.num = i) :
    (xkcd env s).1 = Except.ok (some (toString (s.xkcd + 1))) ∧
    (xkcd env s).2.1 = { s with xkcd := s.xkcd + 1 } := by
  unfold xkcd xkcdNotify
  simp only [hl]
  by_cases h1 : s.xkcd + 1 = lx.num
  · rw [if_pos h1, send_all_ok env.deliver _ hdel]
    simp [h1]
  · have h2 : s.xkcd + 1 < lx.num := by omega
    rw [if_neg h1, if_pos h2]
    obtain ⟨p, hp, hpnum⟩ := hidx (s.xkcd + 1) (by omega) h2
    simp only [hp]
    rw [send_all_ok env.deliver _ hdel]
    simp [hpnum]

/-- Catch-up over the full distance, by induction on it: the final state
has checkpoint equal to the latest number, and the notified titles are
exactly the numbers from c + 1 up to the latest, oldest first. -/
theorem xkcdRuns_catchup (env : XkcdEnv) (lx : Xkcd)
    (hl : env.latest = Except.ok lx) (hdel : ∀ u, env.deliver u = true) :
    ∀ (n : Nat) (s : ComicCronState), lx.num = s.xkcd + (n : Int) →
    (∀ i : Int, s.xkcd < i → i < lx.num →
      ∃ p, env.byIndex i = Except.ok p ∧ p.num = i) →
    (xkcdRuns env s n).1 = { s with xkcd := lx.num } ∧
    (xkcdRuns env s n).2 =
      (List.range n).map (fun k : Nat => toString (s.xkcd + 1 + (k : Int)))
  | 0, s => fun hn _ => by
      have hx : lx.num = s.xkcd := by omega
      refine ⟨?_, by simp [xkcdRuns]⟩
      simp [xkcdRuns, hx]
  | n + 1, s => fun hn hidx => by
      have hlt : s.xkcd < lx.num := by omega
      obtain ⟨h1, h2⟩ := xkcd_step_behind env lx hl hdel s hlt hidx
      have hn2 : lx.num = s.xkcd + 1 + (n : Int) := by omega
      have hidx2 : ∀ i : Int, s.xkcd + 1 < i → i < lx.num →
          ∃ p, env.byIndex i = Except.ok p ∧ p.num = i :=
        fun i hi1 hi2 => hidx i (by omega) hi2
      obtain ⟨ih1, ih2⟩ :
          (xkcdRuns env { s with xkcd := s.xkcd + 1 } n).1 =
            { s with xkcd := lx.num } ∧
          (xkcdRuns env { s with xkcd := s.xkcd + 1 } n).2 =
            (List.range n).map (fun k : Nat => toString (s.xkcd + 1 + 1 + (k : Int))) :=
        xkcdRuns_catchup env lx hl hdel n { s with xkcd := s.xkcd + 1 } hn2 hidx2
      constructor
      · simp only [xkcdRuns]
        rw [h2, ih1]
      · simp only [xkcdRuns]
        simp only [h1, h2]
        rw [ih2]
        rw [List.range_succ_eq_map, List.map_cons, List.map_map]
        simp only [List.singleton_append]
        refine congrArg₂ List.cons ?_ ?_
        · congr 1
          push_cast
          ring
        · refine List.map_congr_left ?_
          intro a _
          simp only [Function.comp_apply]
          congr 1
          push_cast
          ring

/-- Per-run advancement: after m runs while still at or before the latest,
the checkpoint has advanced by exactly m. -/
theorem xkcdRuns_advance (env : XkcdEnv) (lx : Xkcd)
    (hl : env.latest = Except.ok lx) (hdel : ∀ u, env.deliver u = true) :
    ∀ (m : Nat) (s : ComicCronState), s.xkcd + (m : Int) ≤ lx.num →
    (∀ i : Int, s.xkcd < i → i < lx.num →
      ∃ p, env.byIndex i = Except.ok p ∧ p.num = i) →
    (xkcdRuns env s m).1 = { s with xkcd := s.xkcd + (m : Int) }
  | 0, s => fun _ _ => by simp [xkcdRuns]
  | m + 1, s => fun hle hidx => by
      have hlt : s.xkcd < lx.num := by omega
      obtain ⟨_, h2⟩ := xkcd_step_behind env lx hl hdel s hlt hidx
      have hle2 : s.xkcd + 1 + (m : Int) ≤ lx.num := by omega
      have hidx2 : ∀ i : Int, s.xkcd + 1 < i → i < lx.num →
          ∃ p, env.byIndex i = Except.ok p ∧ p.num = i :=
        fun i hi1 hi2 => hidx i (by omega) hi2
      have ih : (xkcdRuns env { s with xkcd := s.xkcd + 1 } m).1 =
          { s with xkcd := s.xkcd + 1 + (m : Int) } :=
        xkcdRuns_advance env lx hl hdel m { s with xkcd := s.xkcd + 1 } hle2 hidx2
      simp only [xkcdRuns]
      rw [h2, ih]
      congr 1
      push_cast
      ring

/-- C5: Numeric multi-run catch-up: for checkpoint c and fixed latest
L ≥ c, iterating the single-run step reaches checkpoint L after exactly
L - c runs; every run advances the checkpoint by exactly one; the titles
notified are exactly the integers in (c, L], oldest first, each exactly
once; and the run after that reports no update with nothing sent. -/
theorem claim5_numeric_catchup (env : XkcdEnv) (lx : Xkcd) (s : ComicCronState)
    (hl : env.latest = Except.ok lx) (hdel : ∀ u, env.deliver u = true)
    (hge : s.xkcd ≤ lx.num)
    (hidx : ∀ i : Int, s.xkcd < i → i < lx.num →
      ∃ p, env.byIndex i = Except.ok p ∧ p.num = i) :
    (xkcdRuns env s (lx.num - s.xkcd).toNat).1 = { s with xkcd := lx.num } ∧
    (xkcdRuns env s (lx.num - s.xkcd).toNat).2 =
      (List.range (lx.num - s.xkcd).toNat).map
        (fun k : Nat => toString (s.xkcd + 1 + (k : Int))) ∧
    (∀ m, m ≤ (lx.num - s.xkcd).toNat →
      (xkcdRuns env s m).1 = { s with xkcd := s.xkcd + (m : Int) }) ∧
    xkcd env (xkcdRuns env s (lx.num - s.xkcd).toNat).1 =
      (Except.ok none, { s with xkcd := lx.num }, []) := by
  have hn : lx.num = s.xkcd + ((lx.num - s.xkcd).toNat : Int) := by omega
  obtain ⟨h1, h2⟩ := xkcdRuns_catchup env lx hl hdel (lx.num - s.xkcd).toNat s hn hidx
  refine ⟨h1, h2, ?_, ?_⟩
  · intro m hm
    refine xkcdRuns_advance env lx hl hdel m s ?_ hidx
    omega
  · rw [h1]
    unfold xkcd
    simp only [hl]
    rw [if_neg (by omega), if_neg (by omega)]

/-- Witness for C5: checkpoint 100, latest 103: three runs notify 101,
102, 103 in order, land on checkpoint 103, and a fourth run is a
no-update. -/
theorem claim5_numeric_catchup_witness :
    (xkcdRuns xkcdEnvOk state0 ((mkXkcd 103).num - state0.xkcd).toNat).1 =
      { state0 with xkcd := (mkXkcd 103).num } ∧
    (xkcdRuns xkcdEnvOk state0 ((mkXkcd 103).num - state0.xkcd).toNat).2 =
      (List.range ((mkXkcd 103).num - state0.xkcd).toNat).map
        (fun k : Nat => toString (state0.xkcd + 1 + (k : Int))) ∧
    (∀ m, m ≤ ((mkXkcd 103).num - state0.xkcd).toNat →
      (xkcdRuns xkcdEnvOk state0 m).1 = { state0 with xkcd := state0.xkcd + (m : Int) }) ∧
    xkcd xkcdEnvOk (xkcdRuns xkcdEnvOk state0 ((mkXkcd 103).num - state0.xkcd).toNat).1 =
      (Except.ok none, { state0 with xkcd := (mkXkcd 103).num }, []) :=
  claim5_numeric_catchup xkcdEnvOk (mkXkcd 103) state0 rfl (fun _ => rfl)
    (by decide) (fun i _ _ => ⟨mkXkcd i, rfl, rfl⟩)

/-- The content line of a built webhook is the skipped warning exactly
when the potential-skip flag is set. -/
theorem webhook_content (rfc : String → Option String) (item : RssItem)
    (skip : Bool) (et ft : String) (w : Webhook)
    (h : RssItem.webhook rfc item skip et ft = some w) :
    w.content = if skip then "Some items may have been skipped" else "" := by
  unfold RssItem.webhook at h
  cases hts : rfc item.pub_date
  · rw [hts] at h
    exact Option.noConfusion h
  · rw [hts] at h
    rw [← Option.some.inj h]

/-- C2: Guid-ordered detector (qc and smbc share this body): on an empty
item list the run is the "no rss items" error, not a no-update; when the
newest item carries the checkpoint guid the run is a no-update with the
checkpoint unchanged; when the checkpoint guid first reappears at full-list
index i + 1 ≥ 1, the run notifies exactly the item just newer than it (full
list index i), without the skipped warning, and moves the checkpoint to
that item's guid; when the checkpoint guid appears nowhere, the run
notifies the oldest fetched item with the skipped warning and moves the
checkpoint to its guid. -/
theorem claim2_guid_detector (rfc : String → Option String) (deliver : String → Bool)
    (et ft g : String) (urls : List String) (hdel : ∀ u, deliver u = true) :
    (guidStep rfc deliver et ft urls g [] = (Except.error "no rss items", g, [])) ∧
    (∀ (x : RssItem) (rest : List RssItem), x.guid = g →
      guidStep rfc deliver et ft urls g (x :: rest) = (Except.ok none, g, [])) ∧
    (∀ (x : RssItem) (rest : List RssItem) (i : Nat) (w : Webhook),
      x.guid ≠ g → i < rest.length →
      (rest.getD i default).guid = g →
      (∀ j, j < i → (rest.getD j default).guid ≠ g) →
      RssItem.webhook rfc ((x :: rest).getD i default) false et ft = some w →
      guidStep rfc deliver et ft urls g (x :: rest) =
        (Except.ok (some ((x :: rest).getD i default).title),
         ((x :: rest).getD i default).guid,
         urls.map (fun u => { url := u, payload := w })) ∧
      w.content = "") ∧
    (∀ (x : RssItem) (rest : List RssItem) (w : Webhook),
      x.guid ≠ g →
      (∀ j, j < rest.length → (rest.getD j default).guid ≠ g) →
      RssItem.webhook rfc ((x :: rest).getD rest.length default) true et ft = some w →
      guidStep rfc deliver et ft urls g (x :: rest) =
        (Except.ok (some ((x :: rest).getD rest.length default).title),
         ((x :: rest).getD rest.length default).guid,
         urls.map (fun u => { url := u, payload := w })) ∧
      w.content = "Some items may have been skipped") := by
  refine ⟨by simp [guidStep], ?_, ?_, ?_⟩
  · intro x rest hx
    unfold guidStep
    rw [if_neg (by simp), if_pos (by simp [hx])]
  · intro x rest i w hx hi hg hfirst hw
    have hscan : scanIdx g (x :: rest) = some (i + 1) := by
      unfold scanIdx
      rw [show (x :: rest).drop 1 = rest from rfl,
        scanAux_eq_some g rest i hi hg hfirst]
      rfl
    refine ⟨?_, by simpa using webhook_content rfc _ false et ft w hw⟩
    unfold guidStep
    rw [if_neg (by simp), if_neg (by simp [hx])]
    simp only [hscan, Nat.add_sub_cancel, hw]
    rw [send_all_ok deliver _ hdel]
  · intro x rest w hx hnone hw
    have hscan : scanIdx g (x :: rest) = none := by
      unfold scanIdx
      rw [show (x :: rest).drop 1 = rest from rfl, scanAux_eq_none g rest hnone]
      rfl
    refine ⟨?_, by simpa using webhook_content rfc _ true et ft w hw⟩
    unfold guidStep
    rw [if_neg (by simp), if_neg (by simp [hx])]
    simp only [hscan, List.length_cons, Nat.add_sub_cancel, hw]
    rw [send_all_ok deliver _ hdel]

/-- Witness for C2: checkpoint c found at full-list index 2 of the
three-item fixture; the run notifies item B at index 1 and moves the
checkpoint to b. -/
theorem claim2_guid_detector_witness :
    guidStep rfcConst deliverAll "QC" QC_FOOTER ["u"] "c" cexItems =
      (Except.ok (some ((cexItems.getD 1 default).title)),
       (cexItems.getD 1 default).guid,
       (["u"] : List String).map (fun u => { url := u, payload := qcPayload "B" false })) ∧
    (qcPayload "B" false).content = "" :=
  (claim2_guid_detector rfcConst deliverAll "QC" QC_FOOTER "c" ["u"]
      (fun _ => rfl)).2.2.1
    (mkItem "A" "a") [mkItem "B" "b", mkItem "C" "c"] 1 (qcPayload "B" false)
    (by decide) (by decide) (by decide)
    (fun j hj => by interval_cases j; decide) rfl

/-- C4 counterexample: with items carrying guids a, b, c (newest first)
and checkpoint c, the first run returns Updated for B and moves the
checkpoint to b; re-running with the exact same item list returns another
Updated (for A), not NoUpdate, refuting the claim that one Updated run is
always followed by NoUpdate on an unchanged feed. -/
theorem claim4_rerun_cex :
    (guidStep rfcConst deliverAll "QC" QC_FOOTER ["u"] "c" cexItems).1 =
      Except.ok (some "B") ∧
    (guidStep rfcConst deliverAll "QC" QC_FOOTER ["u"] "c" cexItems).2.1 = "b" ∧
    (guidStep rfcConst deliverAll "QC" QC_FOOTER ["u"] "b" cexItems).1 =
      Except.ok (some "A") ∧
    (guidStep rfcConst deliverAll "QC" QC_FOOTER ["u"] "b" cexItems).1 ≠
      Except.ok none := by
  refine ⟨rfl, rfl, rfl, fun h => ?_⟩
  rw [show (guidStep rfcConst deliverAll "QC" QC_FOOTER ["u"] "b" cexItems).1 =
    Except.ok (some "A") from rfl] at h
  exact Option.noConfusion (Except.ok.inj h)

/-- When the date oracle always succeeds, webhook construction always
succeeds. -/
theorem webhook_total (rfc : String → Option String) (item : RssItem)
    (skip : Bool) (et ft : String) (h : (rfc item.pub_date).isSome) :
    ∃ w, RssItem.webhook rfc item skip et ft = some w := by
  unfold RssItem.webhook
  cases hts : rfc item.pub_date
  · rw [hts] at h
    cases h
  · exact ⟨_, rfl⟩

/-- Once the newest item's guid differs from the checkpoint, the
guid-ordered step never reports NoUpdate: every branch of the scan and of
the gap fallback ends in an error or in a notified item. -/
theorem guidStep_ne_noupdate (rfc : String → Option String) (deliver : String → Bool)
    (et ft : String) (urls : List String) (g1 : String) (items : List RssItem)
    (hne : ¬ items.length = 0)
    (hhead : (items.headD default).guid ≠ g1) :
    (guidStep rfc deliver et ft urls g1 items).1 ≠ Except.ok none := by
  unfold guidStep
  rw [if_neg hne, if_neg (by simp only [beq_iff_eq]; exact hhead)]
  repeat' split
  all_goals simp

/-- C4 (amended): after a run that returns Updated and advances the
checkpoint to g1, re-running with the exact same item list yields NoUpdate
if and only if g1 is the newest item's guid — that is, exactly when the
run notified items[0].  Forward direction: head guid equal to g1 gives the
NoUpdate result with nothing sent.  Reverse direction (as contrapositive):
when g1 differs from the head guid the re-run never yields NoUpdate, and
with webhook construction and delivery succeeding it returns another
Updated — so detection with an unchanged feed and an already-updated
checkpoint can produce a second Updated result. -/
theorem claim4_rerun_amended (rfc : String → Option String) (deliver : String → Bool)
    (et ft g g1 t0 : String) (urls : List String) (items : List RssItem)
    (log : List Sent)
    (h1 : guidStep rfc deliver et ft urls g items = (Except.ok (some t0), g1, log)) :
    ((items.headD default).guid = g1 →
      guidStep rfc deliver et ft urls g1 items = (Except.ok none, g1, [])) ∧
    ((items.headD default).guid ≠ g1 →
      (guidStep rfc deliver et ft urls g1 items).1 ≠ Except.ok none) ∧
    ((items.headD default).guid ≠ g1 → (∀ u, deliver u = true) →
      (∀ ts, (rfc ts).isSome) →
      ∃ t1 g2 log2, guidStep rfc deliver et ft urls g1 items =
        (Except.ok (some t1), g2, log2)) := by
  have hne : ¬ items.length = 0 := by
    intro h0
    unfold guidStep at h1
    rw [if_pos h0] at h1
    simp [Prod.ext_iff] at h1
  refine ⟨?_, fun hh => guidStep_ne_noupdate rfc deliver et ft urls g1 items hne hh, ?_⟩
  · intro h2
    unfold guidStep
    rw [if_neg hne, if_pos (by simp only [beq_iff_eq]; exact h2)]
  · intro hh hdel hrfc
    unfold guidStep
    rw [if_neg hne, if_neg (by simp only [beq_iff_eq]; exact hh)]
    cases hscan : scanIdx g1 items with
    | some i =>
        obtain ⟨w, hw⟩ :=
          webhook_total rfc (items.getD (i - 1) default) false et ft (hrfc _)
        simp only [hw]
        rw [send_all_ok deliver _ hdel]
        exact ⟨_, _, _, rfl⟩
    | none =>
        obtain ⟨w, hw⟩ :=
          webhook_total rfc (items.getD (items.length - 1) default) true et ft (hrfc _)
        simp only [hw]
        rw [send_all_ok deliver _ hdel]
        exact ⟨_, _, _, rfl⟩

/-- Witness for C4 (amended), both directions: on the two-item fixture the
first run notifies the newest item A (checkpoint a) and the re-run is a
no-update; on the three-item fixture the first run notifies B (checkpoint
b, not the head guid) and the re-run is provably not a no-update — indeed
another Updated. -/
theorem claim4_rerun_amended_witness :
    guidStep rfcConst deliverAll "QC" QC_FOOTER ["u"] "a" items2 =
      (Except.ok none, "a", []) ∧
    (guidStep rfcConst deliverAll "QC" QC_FOOTER ["u"] "b" cexItems).1 ≠
      Except.ok none ∧
    (∃ t1 g2 log2, guidStep rfcConst deliverAll "QC" QC_FOOTER ["u"] "b" cexItems =
      (Except.ok (some t1), g2, log2)) :=
  ⟨(claim4_rerun_amended rfcConst deliverAll "QC" QC_FOOTER "b" "a" "A" ["u"] items2
      [{ url := "u", payload := qcPayload "A" false }] rfl).1 rfl,
   (claim4_rerun_amended rfcConst deliverAll "QC" QC_FOOTER "c" "b" "B" ["u"] cexItems
      [{ url := "u", payload := qcPayload "B" false }] rfl).2.1 (by decide),
   (claim4_rerun_amended rfcConst deliverAll "QC" QC_FOOTER "c" "b" "B" ["u"] cexItems
      [{ url := "u", payload := qcPayload "B" false }] rfl).2.2 (by decide)
     (fun _ => rfl) (fun _ => rfl)⟩

/-- The only error a send can produce is the delivery error. -/
theorem send_error_msg (deliver : String → Bool) (w : Webhook) :
    ∀ (urls : List String) (e : String),
      (Webhook.send deliver w urls).1 = Except.error e → e = "error sending webhook"
  | [], e => by simp [Webhook.send]
  | url :: rest, e => by
      by_cases h : deliver url
      · simp only [Webhook.send, h, if_true]
        exact fun hh => send_error_msg deliver w rest e hh
      · simp only [Webhook.send, h, if_false]
        exact fun hh => (Except.error.inj hh).symm

/-- A run of the guid-ordered step that fails at webhook construction
returns before anything is sent: the checkpoint is unchanged and the
delivery log is empty. -/
theorem guidStep_rwh (rfc : String → Option String) (deliver : String → Bool)
    (et ft : String) (urls : List String) (g : String) (items : List RssItem)
    (h : (guidStep rfc deliver et ft urls g items).1 = Except.error "rust -> webhook") :
    guidStep rfc deliver et ft urls g items = (Except.error "rust -> webhook", g, []) := by
  revert h
  unfold guidStep
  repeat' split
  all_goals intro h
  all_goals first
  | rfl
  | exact Except.noConfusion h
  | exact absurd (Except.error.inj h) (by decide)
  | (rename_i e log heq
     have he := send_error_msg deliver _ urls e (by rw [heq])
     have h1 := Except.error.inj h
     rw [he] at h1
     exact absurd h1 (by decide))

/-- A qc run that fails with the webhook-construction error returns with
the state untouched and nothing sent. -/
theorem qc_rwh (env : RssEnv) (s : ComicCronState)
    (h : (qc env s).1 = Except.error "rust -> webhook") :
    qc env s = (Except.error "rust -> webhook", s, []) := by
  revert h
  unfold qc
  rcases hF : env.fetch with e | text
  · intro h
    rw [Except.error.inj h]
  · rcases hD : env.parseDoc text with _ | root
    · simp only [hD]
      intro h
      exact absurd (Except.error.inj h) (by decide)
    · simp only [hD]
      by_cases h0 : (elemNameList "item" root.childrenOf).length = 0
      · rw [if_pos h0]
        intro h
        exact absurd (Except.error.inj h) (by decide)
      · rw [if_neg h0]
        rcases hB : buildAll (from_rss env.fragParse parse_qc_desc)
            (elemNameList "item" root.childrenOf) with _ | items
        · simp only [hB]
          intro h
          exact absurd (Except.error.inj h) (by decide)
        · simp only [hB]
          intro h
          have hg := guidStep_rwh env.rfc env.deliver "QC"
            "https://www.questionablecontent.net/favicon/favicon-16x16.png"
            s.qc_webhooks s.qc items h
          rw [hg]

/-- An smbc run that fails with the webhook-construction error returns
with the state untouched and nothing sent. -/
theorem smbc_rwh (env : RssEnv) (s : ComicCronState)
    (h : (smbc env s).1 = Except.error "rust -> webhook") :
    smbc env s = (Except.error "rust -> webhook", s, []) := by
  revert h
  unfold smbc
  rcases hF : env.fetch with e | text
  · intro h
    rw [Except.error.inj h]
  · rcases hD : env.parseDoc text with _ | root
    · simp only [hD]
      intro h
      exact absurd (Except.error.inj h) (by decide)
    · simp only [hD]
      by_cases h0 : (elemNameList "item" root.childrenOf).length = 0
      · rw [if_pos h0]
        intro h
        exact absurd (Except.error.inj h) (by decide)
      · rw [if_neg h0]
        rcases hB : buildAll (from_rss env.fragParse parse_smbc_desc)
            (elemNameList "item" root.childrenOf) with _ | items
        · simp only [hB]
          intro h
          exact absurd (Except.error.inj h) (by decide)
        · simp only [hB]
          intro h
          have hg := guidStep_rwh env.rfc env.deliver "SMBC"
            "https://www.smbc-comics.com/favicon.ico"
            s.smbc_webhooks s.smbc items h
          rw [hg]

/-- C10: Implicit timestamp-formatting failure: when the selected item's
pubDate string does not parse as RFC-2822, webhook construction returns
nothing, the guid-ordered step fails with "rust -> webhook" before
anything is sent, and the checkpoint guid is unchanged; a qc or smbc run
ending in that error returns the state untouched with an empty delivery
log, so the item is never notified with a defaulted timestamp. -/
theorem claim10_rfc_failure (rfc : String → Option String) (deliver : String → Bool)
    (et ft g : String) (urls : List String) :
    (∀ (item : RssItem) (skip : Bool), rfc item.pub_date = none →
      RssItem.webhook rfc item skip et ft = none) ∧
    (∀ (x : RssItem) (rest : List RssItem) (i : Nat),
      x.guid ≠ g → i < rest.length →
      (rest.getD i default).guid = g →
      (∀ j, j < i → (rest.getD j default).guid ≠ g) →
      rfc ((x :: rest).getD i default).pub_date = none →
      guidStep rfc deliver et ft urls g (x :: rest) =
        (Except.error "rust -> webhook", g, [])) ∧
    (∀ (x : RssItem) (rest : List RssItem),
      x.guid ≠ g →
      (∀ j, j < rest.length → (rest.getD j default).guid ≠ g) →
      rfc ((x :: rest).getD rest.length default).pub_date = none →
      guidStep rfc deliver et ft urls g (x :: rest) =
        (Except.error "rust -> webhook", g, [])) ∧
    (∀ (env : RssEnv) (s : ComicCronState),
      (qc env s).1 = Except.error "rust -> webhook" →
      qc env s = (Except.error "rust -> webhook", s, [])) ∧
    (∀ (env : RssEnv) (s : ComicCronState),
      (smbc env s).1 = Except.error "rust -> webhook" →
      smbc env s = (Except.error "rust -> webhook", s, [])) := by
  have hwnone : ∀ (item : RssItem) (skip : Bool), rfc item.pub_date = none →
      RssItem.webhook rfc item skip et ft = none := by
    intro item skip hts
    unfold RssItem.webhook
    rw [hts]
    rfl
  refine ⟨hwnone, ?_, ?_, qc_rwh, smbc_rwh⟩
  · intro x rest i hx hi hg hfirst hts
    have hscan : scanIdx g (x :: rest) = some (i + 1) := by
      unfold scanIdx
      rw [show (x :: rest).drop 1 = rest from rfl,
        scanAux_eq_some g rest i hi hg hfirst]
      rfl
    unfold guidStep
    rw [if_neg (by simp), if_neg (by simp [hx])]
    simp only [hscan, Nat.add_sub_cancel, hwnone _ false hts]
  · intro x rest hx hnone hts
    have hscan : scanIdx g (x :: rest) = none := by
      unfold scanIdx
      rw [show (x :: rest).drop 1 = rest from rfl, scanAux_eq_none g rest hnone]
      rfl
    unfold guidStep
    rw [if_neg (by simp), if_neg (by simp [hx])]
    simp only [hscan, List.length_cons, Nat.add_sub_cancel, hwnone _ true hts]

/-- Witness for C10: a rejecting date oracle makes the fixture run fail
with "rust -> webhook", checkpoint still c, nothing sent. -/
theorem claim10_rfc_failure_witness :
    guidStep rfcNone deliverAll "QC" QC_FOOTER ["u"] "c" cexItems =
      (Except.error "rust -> webhook", "c", []) :=
  (claim10_rfc_failure rfcNone deliverAll "QC" QC_FOOTER "c" ["u"]).2.1
    (mkItem "A" "a") [mkItem "B" "b", mkItem "C" "c"] 1
    (by decide) (by decide) (by decide)
    (fun j hj => by interval_cases j; decide) rfl

/-- A single unbuildable item fails the whole qc run: error "xml -> rust",
state untouched, nothing sent. -/
theorem qc_build_failure (env : RssEnv) (s : ComicCronState) (text : String)
    (root x : Node) (hF : env.fetch = Except.ok text)
    (hD : env.parseDoc text = some root)
    (hx : x ∈ elemNameList "item" root.childrenOf)
    (hfr : from_rss env.fragParse parse_qc_desc x = none) :
    qc env s = (Except.error "xml -> rust", s, []) := by
  have hne : ¬ (elemNameList "item" root.childrenOf).length = 0 := by
    intro h0
    rw [List.length_eq_zero] at h0
    rw [h0] at hx
    cases hx
  have hB := buildAll_none_of_mem (from_rss env.fragParse parse_qc_desc)
    (elemNameList "item" root.childrenOf) x hx hfr
  unfold qc
  simp only [hF]
  simp only [hD]
  rw [if_neg hne]
  simp only [hB]

/-- C6: Field extraction: on a parsed description fragment, extraction
returns the src attribute of the first img element anywhere in the
fragment (document order, descendants included), paired with an empty alt
text; it fails, returning nothing, exactly when there is no img element or
the first one has no src attribute; the smbc extractor is the same
function; such a failure makes from_rss fail on the enclosing item, and an
unbuildable item makes the whole qc run fail with no partial item
notified and the state untouched. -/
theorem claim6_field_extraction (fragParse : String → Option Node) (d : List Node) :
    (∀ url alt, parse_qc_desc d = some (url, alt) →
      alt = "" ∧ ∃ el, (elemNameList "img" d).head? = some el ∧
        attrGet el.attrsOf "src" = some url) ∧
    (parse_qc_desc d = none ↔
      elemNameList "img" d = [] ∨
      ∃ el, (elemNameList "img" d).head? = some el ∧
        attrGet el.attrsOf "src" = none) ∧
    (parse_smbc_desc d = parse_qc_desc d) ∧
    (∀ (item : Node) (dtext : String) (doc : Node),
      cdataField item "description" = some dtext →
      fragParse ("<root>" ++ dtext ++ "</root>") = some doc →
      parse_qc_desc doc.childrenOf = none →
      from_rss fragParse parse_qc_desc item = none) ∧
    (∀ (env : RssEnv) (s : ComicCronState) (text : String) (root x : Node),
      env.fetch = Except.ok text → env.parseDoc text = some root →
      x ∈ elemNameList "item" root.childrenOf →
      from_rss env.fragParse parse_qc_desc x = none →
      qc env s = (Except.error "xml -> rust", s, [])) := by
  refine ⟨?_, ?_, rfl, ?_, qc_build_failure⟩
  · intro url alt h
    cases hh : (elemNameList "img" d).head? with
    | none => simp [parse_qc_desc, hh] at h
    | some el =>
        cases ha : attrGet el.attrsOf "src" with
        | none => simp [parse_qc_desc, hh, ha] at h
        | some u =>
            simp [parse_qc_desc, hh, ha] at h
            obtain ⟨h1, h2⟩ := h
            subst h1
            subst h2
            exact ⟨rfl, el, rfl, ha⟩
  · cases hh : (elemNameList "img" d).head? with
    | none =>
        have hnil := List.head?_eq_none_iff.mp hh
        simp [parse_qc_desc, hh, hnil]
    | some el =>
        have hne : elemNameList "img" d ≠ [] := by
          intro hnil
          rw [hnil] at hh
          cases hh
        cases ha : attrGet el.attrsOf "src" with
        | none => simp [parse_qc_desc, hh, ha, hne]
        | some u => simp [parse_qc_desc, hh, ha, hne]
  · intro item dtext doc hdesc hfp hpd
    cases ht : cdataField item "title" with
    | none => simp [from_rss, ht]
    | some t =>
        cases hlk : cdataField item "link" with
        | none => simp [from_rss, ht, hlk]
        | some lk => simp [from_rss, ht, hlk, hdesc, hfp, hpd]

/-- Witness for C6: the fixture feed holding a malformed item makes the
whole qc run fail with "xml -> rust". -/
theorem claim6_field_extraction_witness :
    qc envBadItem state0 = (Except.error "xml -> rust", state0, []) :=
  (claim6_field_extraction fragParseCex []).2.2.2.2 envBadItem state0 "feed"
    rootWithBadItem badItemNode rfl rfl
    (show badItemNode ∈ ([itemNode "T1" "L1" "D1" "PD" "g1", badItemNode] : List Node)
      from List.Mem.tail _ (List.Mem.head _))
    rfl

/-- C7 counterexample: the fixture feed contains a well-formed newest item
T1 followed by a malformed item; the code fails the WHOLE source with
"xml -> rust" and notifies nothing, while the same run with the malformed
item absent notifies T1 and advances the checkpoint — so the remaining
items of the feed are NOT still processed when one item fails. -/
theorem claim7_drop_cex :
    qc envBadItem state0 = (Except.error "xml -> rust", state0, []) ∧
    (qc envGoodOnly state0).1 = Except.ok (some "T1") ∧
    (qc envGoodOnly state0).2.1.qc = "g1" ∧
    (Except.error "xml -> rust" : Except String (Option String)) ≠
      Except.ok (some "T1") := by
  refine ⟨rfl, rfl, rfl, fun h => ?_⟩
  exact Except.noConfusion h

/-- C7 (amended): an item is built only if each of the five sub-elements
title, link, description, pubDate, guid is extracted — present as exactly
one matching element whose single child is text/cdata content (for the
description, additionally parseable markup whose extraction succeeds);
when any requirement fails the item yields nothing (no defaults are
substituted), but the whole source run then fails with "xml -> rust":
the remaining items of the feed are not processed in that run. -/
theorem claim7_item_requirements (fragParse : String → Option Node)
    (desc : List Node → Option (String × String)) :
    (∀ (item : Node) (r : RssItem), from_rss fragParse desc item = some r →
      cdataField item "title" = some r.title ∧
      cdataField item "link" = some r.link ∧
      (∃ dtext doc, cdataField item "description" = some dtext ∧
        fragParse ("<root>" ++ dtext ++ "</root>") = some doc ∧
        desc doc.childrenOf = some (r.img_url, r.alt_text)) ∧
      cdataField item "pubDate" = some r.pub_date ∧
      cdataField item "guid" = some r.guid) ∧
    (∀ (item : Node) (f : String) (s5 : String),
      cdataField item f = some s5 ↔
      ∃ el c, only (elemNameList f item.childrenOf) = some el ∧
        only el.childrenOf = some c ∧ c.asCdata = some s5) ∧
    (∀ (env : RssEnv) (st : ComicCronState) (text : String) (root x : Node),
      env.fetch = Except.ok text → env.parseDoc text = some root →
      x ∈ elemNameList "item" root.childrenOf →
      from_rss env.fragParse parse_qc_desc x = none →
      qc env st = (Except.error "xml -> rust", st, [])) := by
  refine ⟨?_, ?_, qc_build_failure⟩
  · intro item r h
    cases ht : cdataField item "title" with
    | none => simp [from_rss, ht] at h
    | some t =>
    cases hlk : cdataField item "link" with
    | none => simp [from_rss, ht, hlk] at h
    | some lk =>
    cases hd : cdataField item "description" with
    | none => simp [from_rss, ht, hlk, hd] at h
    | some dtext =>
    cases hfp : fragParse ("<root>" ++ dtext ++ "</root>") with
    | none => simp [from_rss, ht, hlk, hd, hfp] at h
    | some doc =>
    cases hp : desc doc.childrenOf with
    | none => simp [from_rss, ht, hlk, hd, hfp, hp] at h
    | some p =>
    cases hpd : cdataField item "pubDate" with
    | none => simp [from_rss, ht, hlk, hd, hfp, hp, hpd] at h
    | some pd =>
    cases hg : cdataField item "guid" with
    | none => simp [from_rss, ht, hlk, hd, hfp, hp, hpd, hg] at h
    | some gu =>
    have hr : ({ title := t, link := lk, img_url := p.1, alt_text := p.2, pub_date := pd, guid := gu } : RssItem) = r := by
      have h2 : from_rss fragParse desc item =
          some { title := t, link := lk, img_url := p.1, alt_text := p.2, pub_date := pd, guid := gu } := by
        simp [from_rss, ht, hlk, hd, hfp, hp, hpd, hg]
      rw [h2] at h
      exact Option.some.inj h
    subst hr
    exact ⟨rfl, rfl, ⟨dtext, doc, rfl, hfp, hp⟩, rfl, rfl⟩
  · intro item f s5
    cases h1 : only (elemNameList f item.childrenOf) with
    | none => simp [cdataField, h1]
    | some el =>
        cases h2 : only el.childrenOf with
        | none => simp [cdataField, h1, h2]
        | some c => simp [cdataField, h1, h2]

/-- Witness for C7 (amended): the well-formed fixture item builds, and its
five fields were each extracted from the corresponding sub-element. -/
theorem claim7_item_requirements_witness :
    cdataField (itemNode "T1" "L1" "D1" "PD" "g1") "title" = some rItem.title ∧
    cdataField (itemNode "T1" "L1" "D1" "PD" "g1") "link" = some rItem.link ∧
    (∃ dtext doc,
      cdataField (itemNode "T1" "L1" "D1" "PD" "g1") "description" = some dtext ∧
      fragParseCex ("<root>" ++ dtext ++ "</root>") = some doc ∧
      parse_qc_desc doc.childrenOf = some (rItem.img_url, rItem.alt_text)) ∧
    cdataField (itemNode "T1" "L1" "D1" "PD" "g1") "pubDate" = some rItem.pub_date ∧
    cdataField (itemNode "T1" "L1" "D1" "PD" "g1") "guid" = some rItem.guid :=
  (claim7_item_requirements fragParseCex parse_qc_desc).1
    (itemNode "T1" "L1" "D1" "PD" "g1") rItem rfl

/-- C8: Orchestrator isolation and persistence: once the state loads, each
of the three sources is attempted exactly once, in order, regardless of
the others' outcomes; each source's result is rendered to a per-source
outcome string; the checkpoint record is saved exactly once, at the end,
holding the final state; and a failed source's checkpoint field still
holds its loaded value in the saved record. -/
theorem claim8_orchestrator (env : MainEnv) (s0 : ComicCronState)
    (hload : env.load = Except.ok s0) :
    (runMain env).1 = some (renderResult (xkcd env.xkcdEnv s0).1,
      renderResult (qc env.qcEnv (xkcd env.xkcdEnv s0).2.1).1,
      renderResult (smbc env.smbcEnv (qc env.qcEnv (xkcd env.xkcdEnv s0).2.1).2.1).1,
      renderSave env.save,
      (smbc env.smbcEnv (qc env.qcEnv (xkcd env.xkcdEnv s0).2.1).2.1).2.1) ∧
    (runMain env).2 = [Event.attemptXkcd, Event.attemptQc, Event.attemptSmbc,
      Event.save (smbc env.smbcEnv (qc env.qcEnv (xkcd env.xkcdEnv s0).2.1).2.1).2.1] ∧
    ((runMain env).2.count Event.attemptXkcd = 1 ∧
     (runMain env).2.count Event.attemptQc = 1 ∧
     (runMain env).2.count Event.attemptSmbc = 1) ∧
    (∀ e, (xkcd env.xkcdEnv s0).1 = Except.error e →
      ((smbc env.smbcEnv (qc env.qcEnv (xkcd env.xkcdEnv s0).2.1).2.1).2.1).xkcd =
        s0.xkcd) ∧
    (∀ e, (qc env.qcEnv (xkcd env.xkcdEnv s0).2.1).1 = Except.error e →
      ((smbc env.smbcEnv (qc env.qcEnv (xkcd env.xkcdEnv s0).2.1).2.1).2.1).qc =
        s0.qc) ∧
    (∀ e, (smbc env.smbcEnv (qc env.qcEnv (xkcd env.xkcdEnv s0).2.1).2.1).1 =
        Except.error e →
      ((smbc env.smbcEnv (qc env.qcEnv (xkcd env.xkcdEnv s0).2.1).2.1).2.1).smbc =
        s0.smbc) := by
  obtain ⟨cx, hx⟩ := xkcd_shape env.xkcdEnv s0
  obtain ⟨gq, hq⟩ := qc_shape env.qcEnv (xkcd env.xkcdEnv s0).2.1
  obtain ⟨gs, hs⟩ := smbc_shape env.smbcEnv (qc env.qcEnv (xkcd env.xkcdEnv s0).2.1).2.1
  refine ⟨?_, ?_, ?_, ?_, ?_, ?_⟩
  · unfold runMain
    simp only [hload]
  · unfold runMain
    simp only [hload]
  · unfold runMain
    simp only [hload]
    refine ⟨rfl, rfl, rfl⟩
  · intro e he
    have h0 := xkcd_error_state env.xkcdEnv s0 e he
    rw [hs, hq, h0]
  · intro e he
    have h0 := qc_error_state env.qcEnv (xkcd env.xkcdEnv s0).2.1 e he
    rw [hs, h0, hx]
  · intro e he
    have h0 := smbc_error_state env.smbcEnv (qc env.qcEnv (xkcd env.xkcdEnv s0).2.1).2.1 e he
    rw [h0, hq, hx]

/-- Witness for C8: with all three fetches failing and load and save
succeeding, the run still attempts every source, saves once at the end,
and the saved record holds the loaded checkpoints. -/
theorem claim8_orchestrator_witness :
    (runMain mainEnvCex).2 = [Event.attemptXkcd, Event.attemptQc, Event.attemptSmbc,
      Event.save (smbc mainEnvCex.smbcEnv
        (qc mainEnvCex.qcEnv (xkcd mainEnvCex.xkcdEnv state0).2.1).2.1).2.1] ∧
    ((smbc mainEnvCex.smbcEnv
        (qc mainEnvCex.qcEnv (xkcd mainEnvCex.xkcdEnv state0).2.1).2.1).2.1).xkcd =
      state0.xkcd ∧
    ((smbc mainEnvCex.smbcEnv
        (qc mainEnvCex.qcEnv (xkcd mainEnvCex.xkcdEnv state0).2.1).2.1).2.1).qc =
      state0.qc :=
  ⟨(claim8_orchestrator mainEnvCex state0 rfl).2.1,
   (claim8_orchestrator mainEnvCex state0 rfl).2.2.2.1 "url -> request" rfl,
   (claim8_orchestrator mainEnvCex state0 rfl).2.2.2.2.1 "url -> request" rfl⟩

end ComicCron
